import Mathlib

/-!
Verification development for the orchestration core of the
"Agentic Research Collaborator" repository.

The Python sources under `src/` are shallowly embedded below:
pure string manipulation is modelled on `String` (a structure over
`List Char`, matching Python's code-point indexing), floats are
modelled as `ℚ`, the external generation provider is an abstract
oracle indexed by a call counter, and the on-disk run store is an
association list keyed by `run_id`.
-/

/-! ## Python string operation models -/

/-- Model of Python `s[:n]` (slicing by code points). -/
def pyTake (s : String) (n : Nat) : String := ⟨s.data.take n⟩

/-- Model of Python `len(s)`. -/
def pyLen (s : String) : Nat := s.data.length

/-- Model of Python `s.strip()`: drop leading and trailing whitespace. -/
def pyStrip (s : String) : String :=
  ⟨((s.data.dropWhile Char.isWhitespace).reverse.dropWhile Char.isWhitespace).reverse⟩

/-- Model of Python `s.lower()`. -/
def pyLower (s : String) : String := ⟨s.data.map Char.toLower⟩

/-- Model of Python `s.upper()`. -/
def pyUpper (s : String) : String := ⟨s.data.map Char.toUpper⟩

/-- Auxiliary splitter: split a character list on a separator character. -/
def splitChAux (c : Char) : List Char → List Char → List String
  | [], acc => [⟨acc.reverse⟩]
  | x :: xs, acc =>
    if x = c then ⟨acc.reverse⟩ :: splitChAux c xs []
    else splitChAux c xs (x :: acc)

/-- Model of Python `s.split(c)` for a one-character separator. -/
def splitCh (c : Char) (s : String) : List String := splitChAux c s.data []

/-- Model of Python `s.split(chr, 1)[-1]`: everything after the first
occurrence of the character, or the whole string if absent. -/
def afterFirst (c : Char) (s : String) : String :=
  if s.data.contains c then ⟨(s.data.dropWhile (fun x => x ≠ c)).tail⟩ else s

/-- Model of Python `s.rsplit(chr, 1)[0]`: everything before the last
occurrence of the character, or the whole string if absent. -/
def beforeLast (c : Char) (s : String) : String :=
  if s.data.contains c then ⟨((s.data.reverse.dropWhile (fun x => x ≠ c)).tail).reverse⟩
  else s

/-- Model of Python `sep.join(parts)`. -/
def joinSep (sep : String) : List String → String
  | [] => ""
  | [x] => x
  | x :: y :: rest => x ++ sep ++ joinSep sep (y :: rest)

/-- Bool-valued substring test on character lists. -/
def isSubstr (pat : List Char) : List Char → Bool
  | [] => pat.isEmpty
  | x :: xs => pat.isPrefixOf (x :: xs) || isSubstr pat xs

/-- Model of the completion-marker test in `Orchestrator._debate`:
Python `"[done]" in content.lower()`. -/
def markerDone (s : String) : Bool := isSubstr "[done]".data (pyLower s).data

/-- Model of Python `round(q, 3)` on our rational float model. -/
def pyRound3 (q : ℚ) : ℚ := ((round (q * 1000) : ℤ) : ℚ) / 1000

/-- Deterministic rendering of a confidence value inside an f-string
(stands in for Python float formatting; no claim depends on the digits). -/
def ratStr (q : ℚ) : String := toString q.num ++ "/" ++ toString q.den

/-! ## Data model (src/schemas/models.py) -/

/-- A single agent message (`schemas.models.Message`). -/
structure Message where
  role : String
  content : String
  citations : List String
  confidence : ℚ
deriving DecidableEq, Repr

/-- A single orchestration turn (`schemas.models.Turn`). -/
structure Turn where
  index : Nat
  messages : List Message
deriving DecidableEq, Repr

/-- A full run trace (`schemas.models.Trace`); `created_at` is kept
abstract as a string timestamp. -/
structure Trace where
  run_id : String
  topic : String
  created_at : String
  status : String
  turns : List Turn
deriving DecidableEq, Repr

/-- Final report (`schemas.models.InsightReport`). -/
structure InsightReport where
  run_id : String
  topic : String
  summary : String
  hypotheses : List String
  confidence : ℚ
  citations : List String
deriving DecidableEq, Repr

/-! ## Provider oracle and agents (src/agents) -/

/-- One structured provider response: `(content, citations, confidence)`. -/
structure Resp where
  content : String
  citations : List String
  confidence : ℚ

/-- The external generation provider, abstracted as an oracle: given the
index of the call (the position in the run's sequence of provider calls),
the calling agent's role name, its instruction string and the prompt, it
yields a response.  The real provider may be stateful/nondeterministic;
indexing by the call counter captures that while staying executable. -/
def Provider := Nat → String → String → String → Resp

/-- Agent configuration (`agents.base_agent.AgentConfig`, the fields the
core uses). -/
structure AgentConfig where
  role_name : String
  instructions : String

/-- `ReaderAgent` configuration (src/agents/roles/reader.py). -/
def readerCfg : AgentConfig :=
  { role_name := "reader"
  , instructions :=
      "Identify core methods, datasets, and principal findings." ++
      " Provide concise bullet points; avoid speculation." ++
      " When available, reference the extracted knowledge base and retrieved documents." }

/-- `CriticAgent` configuration (src/agents/roles/critic.py). -/
def criticCfg : AgentConfig :=
  { role_name := "critic"
  , instructions :=
      "Challenge claims by identifying contradictions and unsupported points." ++
      " List missing evidence and questions for clarification." }

/-- `SynthesizerAgent` configuration (src/agents/roles/synthesizer.py). -/
def synthesizerCfg : AgentConfig :=
  { role_name := "synthesizer"
  , instructions :=
      "Integrate findings and critiques into coherent hypotheses." ++
      " Provide rationale and map citations to each hypothesis." }

/-- `VerifierAgent` configuration (src/agents/roles/verifier.py). -/
def verifierCfg : AgentConfig :=
  { role_name := "verifier"
  , instructions :=
      "Re-verify claims using available context; flag weak points." ++
      " Estimate consensus confidence; propose next step if needed." }

/-- `FollowUpAgent` configuration (src/agents/roles/followup.py). -/
def followupCfg : AgentConfig :=
  { role_name := "followup"
  , instructions :=
      "Identify knowledge gaps, propose follow-up research questions, suggest methodologies, " ++
      "and highlight connections among findings. Be specific and actionable." }

/-- `BaseAgent.send`: query the provider at the current call counter and
wrap the response into a `Message`; returns the message and the advanced
counter. -/
def baseSend (P : Provider) (cfg : AgentConfig) (ctr : Nat) (prompt : String) :
    Message × Nat :=
  let r := P ctr cfg.role_name cfg.instructions prompt
  ({ role := cfg.role_name, content := r.content, citations := r.citations
   , confidence := r.confidence }, ctr + 1)

/-- An agent as the orchestrator sees it: a `send` function threading the
provider call counter. -/
def Agent := Nat → String → Message × Nat

/-! ## Reader augmentation (src/agents/roles/reader.py, src/retrieval) -/

/-- A retrieved document chunk as the Reader consumes it
(`page_content` plus the `source`/`chunk_id` metadata keys). -/
structure Doc where
  page_content : String
  source : Option String
  chunk_id : Option String

/-- A knowledge-base entry (the dictionary fields
`ReaderAgent._format_knowledge_base` reads; a string field that is
present but empty is falsy in Python, which the formatting reproduces). -/
structure KBEntry where
  source : Option String
  title : Option String
  summary : Option String
  key_concepts : List String
  main_findings : List String
  methodologies : List String

/-- The retrieval index interface: `get_relevant_documents(query, k)`. -/
def Retriever := String → Nat → List Doc

/-- The Reader-local state: optional retriever, top-k, loaded knowledge
base (`ReaderAgent.__init__`; `bm25_k` is stored as `max(1, bm25_k)`). -/
structure ReaderState where
  retriever : Option Retriever
  bm25_k : Nat
  kb : List KBEntry

/-- Format one knowledge-base entry (body of the loop in
`ReaderAgent._format_knowledge_base`, with `i` the 1-based index). -/
def formatEntry (i : Nat) (e : KBEntry) : String :=
  joinSep "\n" (
    ["Document " ++ toString i ++ ": " ++ e.source.getD "Unknown"]
    ++ (match e.title with
        | some t => if t = "" then [] else ["  Title: " ++ t]
        | none => [])
    ++ (match e.summary with
        | some s =>
          if s = "" then []
          else ["  Summary: " ++ (if 300 < pyLen s then pyTake s 300 ++ "..." else s)]
        | none => [])
    ++ (if e.key_concepts.isEmpty then []
        else ["  Key Concepts: " ++ joinSep ", " (e.key_concepts.take 5)])
    ++ (if e.main_findings.isEmpty then []
        else "  Main Findings:" ::
          (e.main_findings.take 3).map
            (fun f => "    - " ++ (if pyLen f < 150 then f else pyTake f 150 ++ "...")))
    ++ (if e.methodologies.isEmpty then []
        else ["  Methodologies: " ++ joinSep ", " (e.methodologies.take 3)]))

/-- `ReaderAgent._format_knowledge_base`: first 3 entries, enumerated
from 1, joined by blank lines; empty string when the KB is empty. -/
def formatKB (kb : List KBEntry) : String :=
  joinSep "\n\n" ((kb.take 3).enum.map (fun p => formatEntry (p.1 + 1) p.2))

/-- The documents the Reader retrieves for a prompt (empty when no
retriever is configured). -/
def readerDocs (st : ReaderState) (prompt : String) : List Doc :=
  match st.retriever with
  | none => []
  | some r => r prompt st.bm25_k

/-- Snippet of one retrieved chunk: stripped page content, truncated at
400 code points on a word boundary with a `" ..."` suffix. -/
def snippetOf (d : Doc) : String :=
  let s := pyStrip d.page_content
  if 400 < pyLen s then beforeLast ' ' (pyTake s 400) ++ " ..." else s

/-- One formatted retrieved chunk, tagged with source and chunk id. -/
def chunkEntry (d : Doc) : String :=
  "[SOURCE: " ++ d.source.getD "?" ++ " | CHUNK: " ++ d.chunk_id.getD "?" ++ "]\n"
    ++ snippetOf d

/-- The knowledge-base context part (step 1 of `ReaderAgent.send`). -/
def kbParts (st : ReaderState) : List String :=
  if st.kb.isEmpty then []
  else
    let c := formatKB st.kb
    if c = "" then [] else ["--- Extracted Knowledge Base ---\n" ++ c]

/-- The retrieval context part (step 2 of `ReaderAgent.send`). -/
def retrParts (st : ReaderState) (prompt : String) : List String :=
  let docs := readerDocs st prompt
  if docs.isEmpty then []
  else ["--- Retrieved Document Chunks ---\n" ++ joinSep "\n\n" (docs.map chunkEntry)]

/-- The fifty-dash ruler appended after the augmentation context. -/
def dashes50 : String := "--------------------------------------------------"

/-- Prompt augmentation in `ReaderAgent.send` (step 3): pass through
unmodified when no context part is available. -/
def augment (st : ReaderState) (prompt : String) : String :=
  let parts := kbParts st ++ retrParts st prompt
  if parts.isEmpty then prompt
  else prompt ++ "\n\n" ++ joinSep "\n\n" parts ++ "\n" ++ dashes50 ++ "\n"

/-- The Reader agent: augments the prompt, then delegates to the base
send. -/
def readerAgent (P : Provider) (st : ReaderState) : Agent :=
  fun ctr prompt => baseSend P readerCfg ctr (augment st prompt)

/-- The Critic agent (plain base send). -/
def criticAgent (P : Provider) : Agent := fun ctr prompt => baseSend P criticCfg ctr prompt

/-- The Synthesizer agent (plain base send). -/
def synthesizerAgent (P : Provider) : Agent :=
  fun ctr prompt => baseSend P synthesizerCfg ctr prompt

/-- The Verifier agent (plain base send). -/
def verifierAgent (P : Provider) : Agent :=
  fun ctr prompt => baseSend P verifierCfg ctr prompt

/-- `FollowUpAgent.send` wraps the upstream prompt with its role prompt
and a task footer before delegating. -/
def followupAgent (P : Provider) : Agent :=
  fun ctr prompt =>
    baseSend P followupCfg ctr
      (followupCfg.instructions ++ "\n\n=== PRIOR ANALYSIS ===\n" ++ prompt ++
       "\n\n=== TASK ===\nProduce gaps, questions, directions, connections in the specified format.")

/-! ## Debate sub-dialogue (Orchestrator._debate) -/

/-- Header prepended to the B-asks message of round `r`. -/
def askHdr (aR bR : String) (r : Nat) : String :=
  "[DEBATE " ++ aR ++ "->" ++ bR ++ " | " ++ pyUpper bR ++ " asks | Round " ++ toString r ++ "]\n"

/-- Header prepended to the A-answers message of round `r`. -/
def ansHdr (aR bR : String) (r : Nat) : String :=
  "[DEBATE " ++ aR ++ "->" ++ bR ++ " | " ++ pyUpper aR ++ " answers | Round " ++ toString r ++ "]\n"

/-- Header prepended to the B-synthesis message of round `r`. -/
def sumHdr (aR bR : String) (r : Nat) : String :=
  "[DEBATE " ++ aR ++ "->" ++ bR ++ " | " ++ pyUpper bR ++ " synthesis | Round " ++ toString r ++ "]\n"

/-- The `b_q_prompt` f-string of `Orchestrator._debate`. -/
def askPrompt (aR bR ctx : String) : String :=
  "As the " ++ pyUpper bR ++ ", before proceeding, read the following " ++ pyUpper aR ++
  "\x27s output and ask up to 3 clarifying questions you need to form a coherent understanding.\n\n=== "
  ++ pyUpper aR ++ " OUTPUT ===\n" ++ ctx ++ "\n\nReturn ONLY a numbered list of questions."

/-- The `a_ans_prompt` f-string of `Orchestrator._debate`. -/
def ansPrompt (aR bR : String) (r : Nat) (bqContent : String) : String :=
  "As the " ++ pyUpper aR ++
  ", answer the following questions clearly and concisely, filling any missing details from your analysis. If a question is outside your scope, say so.\n\n=== QUESTIONS FROM "
  ++ pyUpper bR ++ " (Round " ++ toString r ++ ") ===\n" ++ bqContent ++
  "\n\nProvide numbered answers."

/-- The `b_sum_prompt` f-string of `Orchestrator._debate`. -/
def sumPrompt (aR bR : String) (r : Nat) (ctx ansContent : String) : String :=
  "As the " ++ pyUpper bR ++
  ", produce a concise coherent summary of your understanding incorporating the answers. End the message with either [DONE] if you have enough to proceed, or [MORE] if you still need clarification."
  ++ "\n\n=== " ++ pyUpper aR ++ " ORIGINAL OUTPUT ===\n" ++ ctx ++ "\n\n=== " ++ pyUpper aR
  ++ " ANSWERS (Round " ++ toString r ++ ") ===\n" ++ ansContent ++ "\n"

/-- One debate round `r`: B asks, A answers, B synthesizes; the three
messages get their display headers prepended (content mutation in the
source happens before the next prompt is built, which is reproduced
here). -/
def debateRound (A B : Agent) (ctx aR bR : String) (r : Nat) (ctr : Nat) :
    Message × Message × Message × Nat :=
  let bq0 := B ctr (askPrompt aR bR ctx)
  let bq := { bq0.1 with content := askHdr aR bR r ++ bq0.1.content }
  let aa0 := A bq0.2 (ansPrompt aR bR r bq.content)
  let aa := { aa0.1 with content := ansHdr aR bR r ++ aa0.1.content }
  let bs0 := B aa0.2 (sumPrompt aR bR r ctx aa.content)
  let bs := { bs0.1 with content := sumHdr aR bR r ++ bs0.1.content }
  (bq, aa, bs, bs0.2)

/-- The debate loop (`for r in range(1, max_rounds + 1)`), with `fuel`
the remaining rounds, `r` the 1-based round number and `latest` the
last synthesis content so far; returns the appended message log, the
final `latest_summary` and the advanced call counter. -/
def debateLoop (A B : Agent) (ctx aR bR : String) :
    Nat → Nat → Nat → String → List Message × String × Nat
  | 0, _, ctr, latest => ([], latest, ctr)
  | fuel + 1, r, ctr, _ =>
    let step := debateRound A B ctx aR bR r ctr
    let bq := step.1
    let aa := step.2.1
    let bs := step.2.2.1
    if markerDone bs.content then ([bq, aa, bs], bs.content, step.2.2.2)
    else
      let rest := debateLoop A B ctx aR bR fuel (r + 1) step.2.2.2 bs.content
      (bq :: aa :: bs :: rest.1, rest.2.1, rest.2.2)

/-- `Orchestrator._debate`: returns `(handoff_text, messages, counter)`;
the handoff strips the header line of the last synthesis, or falls back
to the original context when no round produced a summary. -/
def debate (A B : Agent) (ctx aR bR : String) (maxRounds ctr : Nat) :
    String × List Message × Nat :=
  let res := debateLoop A B ctx aR bR maxRounds 1 ctr ""
  ((if res.2.1 = "" then ctx else afterFirst '\n' res.2.1), res.1, res.2.2)

/-! ## Turn pipeline and run controller (src/orchestrator/graph.py) -/

/-- The `critic_input` f-string in `Orchestrator.run`. -/
def criticInput (h1 : String) : String :=
  "The Reader has provided the following analysis (after debate handoff):\n\n" ++ h1 ++
  "\n\nCritically evaluate the Reader\x27s findings. Identify gaps, unsupported claims, and potential biases. Reference specific points from the Reader\x27s analysis."

/-- The `synth_input` f-string in `Orchestrator.run`. -/
def synthInput (m1c h2 : String) : String :=
  "--- Reader\x27s Analysis ---\n" ++ m1c ++
  "\n\n--- Critic\x27s Evaluation (after debate handoff) ---\n" ++ h2 ++
  "\n\nSynthesize the Reader\x27s findings with the Critic\x27s challenges. Generate hypotheses that address the Critic\x27s concerns while building on the Reader\x27s insights. Reference specific points from both agents."

/-- The `verify_input` f-string in `Orchestrator.run`. -/
def verifyInput (h3 : String) : String :=
  "--- Synthesizer\x27s Hypotheses (after debate handoff) ---\n" ++ h3 ++
  "\n\nVerify the Synthesizer\x27s hypotheses against the original evidence. Consider the Reader\x27s findings and the Critic\x27s concerns. Reference specific hypotheses and explain your confidence assessment."

/-- The `followup_input` f-string in `Orchestrator.run`. -/
def followupInput (topic m1c h2 h3 : String) (conf : ℚ) (h4 : String) : String :=
  "--- Research Context ---\nTopic: " ++ topic ++
  "\n\nReader\x27s Findings:\n" ++ pyTake m1c 500 ++
  "...\n\nCritic\x27s Challenges (debated):\n" ++ pyTake h2 500 ++
  "...\n\nSynthesizer\x27s Hypotheses (debated):\n" ++ pyTake h3 500 ++
  "...\n\nVerifier\x27s Assessment (debated, Confidence: " ++ ratStr conf ++ "):\n" ++
  pyTake h4 500 ++
  "...\n\nBased on the complete multi-agent analysis above, propose follow-up research questions and identify knowledge gaps. Reference specific findings from each agent."

/-- The instrumented record of one turn: the five main pipeline messages
and the four (possibly empty) debate logs, in production order. -/
structure TurnOut where
  m1 : Message
  d1 : List Message
  m2 : Message
  d2 : List Message
  m3 : Message
  d3 : List Message
  m4 : Message
  d4 : List Message
  m5 : Message

/-- The message list of a turn in strict temporal order (the successive
`turn_messages.append` / `.extend` calls of `Orchestrator.run`). -/
def turnMessages (t : TurnOut) : List Message :=
  t.m1 :: (t.d1 ++ t.m2 :: (t.d2 ++ t.m3 :: (t.d3 ++ t.m4 :: (t.d4 ++ [t.m5]))))

/-- One full pipeline pass (one iteration of the turn loop in
`Orchestrator.run`): Reader, optional debate, Critic, optional debate,
Synthesizer, optional debate, Verifier, optional debate, FollowUp.  The
`if handoff = "" then previous-content else handoff` steps reproduce the
Python `handoff or msg.content` fallbacks. -/
def runTurn (P : Provider) (rd : ReaderState) (topic : String)
    (dOn : Bool) (dR : Nat) (ctr : Nat) : TurnOut × Nat :=
  let r1 := readerAgent P rd ctr topic
  let m1 := r1.1
  let p1 := if dOn then debate (readerAgent P rd) (criticAgent P) m1.content
      "reader" "critic" dR r1.2
    else (m1.content, [], r1.2)
  let h1 := if p1.1 = "" then m1.content else p1.1
  let r2 := criticAgent P p1.2.2 (criticInput h1)
  let m2 := r2.1
  let p2 := if dOn then debate (criticAgent P) (synthesizerAgent P) m2.content
      "critic" "synthesizer" dR r2.2
    else (m2.content, [], r2.2)
  let h2 := if p2.1 = "" then m2.content else p2.1
  let r3 := synthesizerAgent P p2.2.2 (synthInput m1.content h2)
  let m3 := r3.1
  let p3 := if dOn then debate (synthesizerAgent P) (verifierAgent P) m3.content
      "synthesizer" "verifier" dR r3.2
    else (m3.content, [], r3.2)
  let h3 := if p3.1 = "" then m3.content else p3.1
  let r4 := verifierAgent P p3.2.2 (verifyInput h3)
  let m4 := r4.1
  let p4 := if dOn then debate (verifierAgent P) (followupAgent P) m4.content
      "verifier" "followup" dR r4.2
    else (m4.content, [], r4.2)
  let h4 := if p4.1 = "" then m4.content else p4.1
  let r5 := followupAgent P p4.2.2 (followupInput topic m1.content h2 h3 m4.confidence h4)
  (⟨m1, p1.2.1, m2, p2.2.1, m3, p3.2.1, m4, p4.2.1, r5.1⟩, r5.2)

/-- The turn loop of `Orchestrator.run`: run up to `fuel` turns, breaking
after the first turn whose Verifier confidence reaches the threshold. -/
def runLoop (P : Provider) (rd : ReaderState) (topic : String) (θ : ℚ)
    (dOn : Bool) (dR : Nat) : Nat → Nat → List TurnOut
  | 0, _ => []
  | fuel + 1, ctr =>
    let step := runTurn P rd topic dOn dR ctr
    if θ ≤ step.1.m4.confidence then [step.1]
    else step.1 :: runLoop P rd topic θ dOn dR fuel step.2

/-- The instrumented turn records of a whole run. -/
def runOuts (P : Provider) (rd : ReaderState) (topic : String)
    (maxTurns : Nat) (θ : ℚ) (dEnv : Bool) (dR : Nat) : List TurnOut :=
  runLoop P rd topic θ (dEnv && decide (0 < dR)) dR maxTurns 0

/-- Assemble the completed `Trace` from the turn records (`Turn(index=i)`
with `i` the 0-based loop index; status flips to `"complete"` after the
loop). -/
def mkTrace (runId topic createdAt : String) (outs : List TurnOut) : Trace :=
  { run_id := runId, topic := topic, created_at := createdAt
  , status := "complete"
  , turns := outs.enum.map (fun p => { index := p.1, messages := turnMessages p.2 }) }

/-- `Orchestrator.run` for a fixed reader configuration: the completed
trace of a run (`run_id` and `created_at` are the two externally
generated inputs; `dEnv` is the `DEBATE_ENABLE` comparison result and
`dR` the parsed `DEBATE_ROUNDS`). -/
def orchestratorRun (P : Provider) (rd : ReaderState) (topic : String)
    (maxTurns : Nat) (θ : ℚ) (dEnv : Bool) (dR : Nat)
    (runId createdAt : String) : Trace :=
  mkTrace runId topic createdAt (runOuts P rd topic maxTurns θ dEnv dR)

/-! ## Report derivation and persistence (graph.py, persistence section) -/

/-- `Orchestrator._persist_report`, report construction part.  The
source reads `trace.turns[-1]` without a guard (modelled as `none` when
`turns` is empty, where Python raises `IndexError`), then takes the
FIRST message of each role via `next(...)`. -/
def buildReport (t : Trace) : Option InsightReport :=
  match t.turns.getLast? with
  | none => none
  | some lastTurn =>
    let synth := lastTurn.messages.find? (fun m => m.role == "synthesizer")
    let verifier := lastTurn.messages.find? (fun m => m.role == "verifier")
    let followup := lastTurn.messages.find? (fun m => m.role == "followup")
    let hypotheses := match synth with
      | some m => (((splitCh '.' m.content).map pyStrip).filter (fun h => h ≠ "")).take 5
      | none => []
    let citations :=
      (match synth with | some m => m.citations | none => []) ++
      (match verifier with | some m => m.citations | none => []) ++
      (match followup with | some m => m.citations | none => [])
    let summary0 := match synth with | some m => pyTake m.content 300 | none => ""
    let summary := match followup with
      | some f => summary0 ++ "\n\nFollow-up Research Directions:\n" ++ pyTake f.content 200 ++ "..."
      | none => summary0
    some
      { run_id := t.run_id, topic := t.topic, summary := summary
      , hypotheses := hypotheses
      , confidence := match verifier with | some m => m.confidence | none => 0
      , citations := citations }

/-- First-match association-list lookup (the run-id keyed file layout
under `data/runs/`). -/
def lookupKey {α : Type} (k : String) : List (String × α) → Option α
  | [] => none
  | p :: rest => if p.1 = k then some p.2 else lookupKey k rest

/-- The on-disk trace/report store: one artifact pair per `run_id`. -/
structure Store where
  traces : List (String × Trace)
  reports : List (String × InsightReport)

/-- `Orchestrator.load_trace`: not-found is `none`, never an error. -/
def loadTrace (s : Store) (runId : String) : Option Trace := lookupKey runId s.traces

/-- `Orchestrator.load_report`: not-found is `none`, never an error. -/
def loadReport (s : Store) (runId : String) : Option InsightReport :=
  lookupKey runId s.reports

/-- A full `start_run` against the store: execute the run, persist the
trace, then derive and persist the report; `none` models the uncaught
`IndexError` when report derivation is reached with an empty turn list. -/
def startRun (s : Store) (P : Provider) (rd : ReaderState) (topic : String)
    (maxTurns : Nat) (θ : ℚ) (dEnv : Bool) (dR : Nat)
    (runId createdAt : String) : Option (String × Store) :=
  let t := orchestratorRun P rd topic maxTurns θ dEnv dR runId createdAt
  match buildReport t with
  | none => none
  | some r =>
    some (runId, { traces := (runId, t) :: s.traces, reports := (runId, r) :: s.reports })

/-! ## Offline placeholder provider (BaseAgent._call_grok_api fallback) -/

/-- Hex digit character (lowercase), as `hashlib.sha256(...).hexdigest()`
produces. -/
def hexChar (n : Nat) : Char :=
  if n < 10 then Char.ofNat (48 + n) else Char.ofNat (87 + n)

/-- The 64-character lowercase hex digest of a 256-bit value. -/
def hexDigest (v : Nat) : String :=
  ⟨(List.range 64).map (fun i => hexChar (v % 2 ^ 256 / 16 ^ (63 - i) % 16))⟩

/-- `int(h[:8], 16)`: the top 32 bits of the digest value. -/
def topWord (v : Nat) : Nat := v % 2 ^ 256 / 2 ^ 224

/-- The mock confidence: `round(0.55 + 0.4 * int(h[:8],16)/0xFFFFFFFF, 3)`. -/
def mockConfidence (v : Nat) : ℚ :=
  pyRound3 (11 / 20 + (2 / 5) * ((topWord v : ℚ) / (2 ^ 32 - 1)))

/-- The deterministic offline placeholder provider, parameterized by the
SHA-256 digest function (kept abstract: `digest s` is the 256-bit value
of `hashlib.sha256(s.encode()).digest()`).  It ignores the call counter:
the mock is stateless and derives everything from instructions+prompt. -/
def mockProvider (digest : String → Nat) : Provider :=
  fun _ role instr prompt =>
    let v := digest (instr ++ "\n" ++ prompt)
    let h := hexDigest v
    { content :=
        "[" ++ pyUpper role ++ "] " ++ pyStrip ((splitCh '\n' instr).headD "") ++
        "\nPrompt: " ++ prompt ++
        "\nResponse: Based on the provided context, here are the key points and next steps."
    , citations := ["mock://ref/" ++ pyTake h 8, "mock://ref/" ++ ⟨(h.data.drop 8).take 8⟩]
    , confidence := mockConfidence v }

/-! ## Orchestrator state and per-run retrieval override (graph.py 46-89) -/

/-- The ambient configuration `_init_reader` consults: environment
variables, the knowledge-base file and the PDF loading / BM25
construction collaborators (kept abstract as functions). -/
structure Env where
  enable_bm25 : String
  bm25_files_dir : String
  kbAt : List KBEntry
  chunksAt : String → List Doc
  mkRetriever : List Doc → Retriever

/-- `Orchestrator._init_reader`: an explicit override retriever wins;
otherwise BM25 is activated when `ENABLE_BM25` is `"true"` or `"auto"`
and the default directory yields chunks.  `bm25_k` is clamped to at
least 1 by the `ReaderAgent` constructor. -/
def initReader (env : Env) (overrideRetriever : Option Retriever) (bm25K : Nat) :
    ReaderState :=
  let retriever : Option Retriever :=
    match overrideRetriever with
    | some r => some r
    | none =>
      if env.enable_bm25 = "true" ∨ env.enable_bm25 = "auto" then
        let chunks := env.chunksAt env.bm25_files_dir
        if chunks.isEmpty then none else some (env.mkRetriever chunks)
      else none
  { retriever := retriever, bm25_k := max 1 bm25K, kb := env.kbAt }

/-- The orchestrator's mutable state: the agents it holds.  Only the
reader carries configuration; the other four roles are stateless. -/
structure Orch where
  reader : ReaderState

/-- `Orchestrator.__init__` (reader built with the default `bm25_k=4`). -/
def newOrch (env : Env) : Orch := ⟨initReader env none 4⟩

/-- `Orchestrator.run` at the object level: applies the per-run retrieval
override by ASSIGNING `self.reader` (graph.py lines 82-89), executes the
turn loop with the resulting reader, and returns the trace together with
the orchestrator state as it remains after the run. -/
def orchRunCtl (env : Env) (P : Provider) (o : Orch) (topic : String)
    (maxTurns : Nat) (θ : ℚ) (dEnv : Bool) (dR : Nat)
    (enableBm25 : Option Bool) (filesDir : Option String) (bm25K : Nat)
    (runId createdAt : String) : Trace × Orch :=
  let o2 : Orch :=
    match enableBm25 with
    | none => o
    | some true =>
      let useDir := match filesDir with
        | some d => if d = "" then env.bm25_files_dir else d
        | none => env.bm25_files_dir
      let chunks := env.chunksAt useDir
      let ov := if chunks.isEmpty then none else some (env.mkRetriever chunks)
      ⟨initReader env ov bm25K⟩
    | some false => ⟨initReader env none bm25K⟩
  (orchestratorRun P o2.reader topic maxTurns θ dEnv dR runId createdAt, o2)

/-! ## Concrete fixtures used by witnesses and counterexample runs -/

/-- A simple concrete provider: every call is tagged with its call index
and gets confidence `index/100`. -/
def trivialProvider : Provider :=
  fun ctr _ _ _ =>
    { content := "c" ++ toString ctr, citations := ["z" ++ toString ctr]
    , confidence := mkRat ctr 100 }

/-- A reader with no retriever and no knowledge base. -/
def rdEmpty : ReaderState := { retriever := none, bm25_k := 4, kb := [] }

/-- The empty store. -/
def emptyStore : Store := { traces := [], reports := [] }

/-! ## Helper lemmas -/

/-- String append acts as list append on the underlying character data. -/
theorem data_append (s t : String) : (s ++ t).data = s.data ++ t.data := by
  cases s; cases t; rfl

/-- Length of appended strings. -/
theorem pyLen_append (s t : String) : pyLen (s ++ t) = pyLen s + pyLen t := by
  simp [pyLen, data_append]

/-- The head of a joined list bounds the length of the join from below. -/
theorem joinSep_head_le (sep a : String) (l : List String) :
    pyLen a ≤ pyLen (joinSep sep (a :: l)) := by
  cases l with
  | nil => simp [joinSep]
  | cons y rest =>
    have h : joinSep sep (a :: y :: rest) = a ++ sep ++ joinSep sep (y :: rest) := rfl
    rw [h, pyLen_append, pyLen_append]
    omega

/-- Dropping a prefix never lengthens a list. -/
theorem dropWhile_len_le (p : Char → Bool) (l : List Char) :
    (l.dropWhile p).length ≤ l.length := by
  induction l with
  | nil => simp
  | cons x xs ih =>
    by_cases hx : p x
    · rw [List.dropWhile_cons_of_pos hx]; exact Nat.le_succ_of_le ih
    · rw [List.dropWhile_cons_of_neg hx]

/-- `beforeLast` never lengthens a string. -/
theorem beforeLast_length_le (c : Char) (s : String) :
    pyLen (beforeLast c s) ≤ pyLen s := by
  unfold beforeLast
  by_cases h : s.data.contains c
  · rw [if_pos h]
    show ((s.data.reverse.dropWhile (fun x => x ≠ c)).tail).reverse.length ≤ s.data.length
    rw [List.length_reverse]
    have h1 : (s.data.reverse.dropWhile (fun x => x ≠ c)).length ≤ s.data.length := by
      have := dropWhile_len_le (fun x => x ≠ c) s.data.reverse
      rwa [List.length_reverse] at this
    have h2 := List.length_tail (s.data.reverse.dropWhile (fun x => x ≠ c))
    omega
  · rw [if_neg h]

/-- `pyTake` is bounded by the requested length. -/
theorem pyTake_length_le (s : String) (n : Nat) : pyLen (pyTake s n) ≤ n := by
  simp [pyTake, pyLen]

/-- First-match lookup finds a freshly inserted key. -/
theorem lookupKey_cons_self {α : Type} (k : String) (v : α) (l : List (String × α)) :
    lookupKey k ((k, v) :: l) = some v := by
  simp [lookupKey]

/-- First-match lookup misses when no pair carries the key. -/
theorem lookupKey_eq_none {α : Type} (k : String) :
    ∀ l : List (String × α), (∀ p ∈ l, p.1 ≠ k) → lookupKey k l = none := by
  intro l
  induction l with
  | nil => intro _; rfl
  | cons p rest ih =>
    intro h
    have hp : p.1 ≠ k := h p (by simp)
    simp only [lookupKey, if_neg hp]
    exact ih (fun q hq => h q (by simp [hq]))

/-- Unfolding equation for one iteration of the turn loop. -/
theorem runLoop_succ (P : Provider) (rd : ReaderState) (topic : String) (θ : ℚ)
    (dOn : Bool) (dR fuel ctr : Nat) :
    runLoop P rd topic θ dOn dR (fuel + 1) ctr =
      if θ ≤ (runTurn P rd topic dOn dR ctr).1.m4.confidence
      then [(runTurn P rd topic dOn dR ctr).1]
      else (runTurn P rd topic dOn dR ctr).1 ::
        runLoop P rd topic θ dOn dR fuel (runTurn P rd topic dOn dR ctr).2 := rfl

/-- The turn loop never exceeds its fuel. -/
theorem runLoop_length_le (P : Provider) (rd : ReaderState) (topic : String) (θ : ℚ)
    (dOn : Bool) (dR : Nat) :
    ∀ fuel ctr, (runLoop P rd topic θ dOn dR fuel ctr).length ≤ fuel := by
  intro fuel
  induction fuel with
  | zero => intro ctr; simp [runLoop]
  | succ n ih =>
    intro ctr
    rw [runLoop_succ]
    by_cases hc : θ ≤ (runTurn P rd topic dOn dR ctr).1.m4.confidence
    · rw [if_pos hc]; simp
    · rw [if_neg hc]
      simp only [List.length_cons]
      exact Nat.succ_le_succ (ih _)

/-- With at least one turn of fuel the loop produces at least one turn. -/
theorem runLoop_ne_nil (P : Provider) (rd : ReaderState) (topic : String) (θ : ℚ)
    (dOn : Bool) (dR : Nat) (fuel ctr : Nat) (h : 1 ≤ fuel) :
    runLoop P rd topic θ dOn dR fuel ctr ≠ [] := by
  cases fuel with
  | zero => omega
  | succ n =>
    rw [runLoop_succ]
    by_cases hc : θ ≤ (runTurn P rd topic dOn dR ctr).1.m4.confidence
    · rw [if_pos hc]; simp
    · rw [if_neg hc]; simp

/-- Every turn before the last one in the loop output has Verifier
confidence strictly below the threshold (the loop would have broken
otherwise). -/
theorem runLoop_conf_lt (P : Provider) (rd : ReaderState) (topic : String) (θ : ℚ)
    (dOn : Bool) (dR : Nat) :
    ∀ fuel ctr i t, (runLoop P rd topic θ dOn dR fuel ctr).get? i = some t →
      i + 1 < (runLoop P rd topic θ dOn dR fuel ctr).length →
      t.m4.confidence < θ := by
  intro fuel
  induction fuel with
  | zero => intro ctr i t ht h; simp [runLoop] at ht
  | succ n ih =>
    intro ctr i t ht h
    by_cases hc : θ ≤ (runTurn P rd topic dOn dR ctr).1.m4.confidence
    · rw [runLoop_succ, if_pos hc] at h
      simp at h
    · rw [runLoop_succ, if_neg hc] at ht h
      rcases i with _ | j
      · simp at ht
        rw [← ht]
        exact lt_of_not_le hc
      · simp only [List.get?_cons_succ] at ht
        simp only [List.length_cons] at h
        exact ih _ j t ht (by omega)

/-- If the loop stopped before exhausting its fuel, the last produced
turn reached the threshold. -/
theorem runLoop_last_ge (P : Provider) (rd : ReaderState) (topic : String) (θ : ℚ)
    (dOn : Bool) (dR : Nat) :
    ∀ fuel ctr, (runLoop P rd topic θ dOn dR fuel ctr).length < fuel →
      ∃ t, (runLoop P rd topic θ dOn dR fuel ctr).getLast? = some t ∧
        θ ≤ t.m4.confidence := by
  intro fuel
  induction fuel with
  | zero => intro ctr h; omega
  | succ n ih =>
    intro ctr h
    by_cases hc : θ ≤ (runTurn P rd topic dOn dR ctr).1.m4.confidence
    · refine ⟨(runTurn P rd topic dOn dR ctr).1, ?_, hc⟩
      rw [runLoop_succ, if_pos hc]
      rfl
    · have h' : (runLoop P rd topic θ dOn dR n (runTurn P rd topic dOn dR ctr).2).length < n := by
        rw [runLoop_succ, if_neg hc] at h
        simpa using h
      obtain ⟨t, hl, hθ⟩ := ih _ h'
      refine ⟨t, ?_, hθ⟩
      rw [runLoop_succ, if_neg hc]
      cases hrest : runLoop P rd topic θ dOn dR n (runTurn P rd topic dOn dR ctr).2 with
      | nil => rw [hrest] at hl; simp at hl
      | cons b bs => rw [hrest] at hl; rw [List.getLast?_cons_cons]; exact hl

/-- Every turn the loop records is a `runTurn` output. -/
theorem runLoop_mem (P : Provider) (rd : ReaderState) (topic : String) (θ : ℚ)
    (dOn : Bool) (dR : Nat) :
    ∀ fuel ctr t, t ∈ runLoop P rd topic θ dOn dR fuel ctr →
      ∃ c, t = (runTurn P rd topic dOn dR c).1 := by
  intro fuel
  induction fuel with
  | zero => intro ctr t h; simp [runLoop] at h
  | succ n ih =>
    intro ctr t h
    by_cases hc : θ ≤ (runTurn P rd topic dOn dR ctr).1.m4.confidence
    · rw [runLoop_succ, if_pos hc] at h
      simp at h
      exact ⟨ctr, h⟩
    · rw [runLoop_succ, if_neg hc] at h
      rcases List.mem_cons.mp h with h1 | h2
      · exact ⟨ctr, h1⟩
      · exact ih _ t h2

/-- Flatten a list of (B-asks, A-answers, B-synthesis) round triples into
the debate message log. -/
def tripleFlat (ts : List (Message × Message × Message)) : List Message :=
  ts.flatMap (fun t => [t.1, t.2.1, t.2.2])

/-- The role pattern of a debate log between roles `ra` (upstream, A) and
`rb` (downstream, B): `[rb, ra, rb]` per round. -/
def rolePat (ra rb : String) : Nat → List String
  | 0 => []
  | k + 1 => rb :: ra :: rb :: rolePat ra rb k

/-- Unfolding equation for one iteration of the debate loop. -/
theorem debateLoop_succ (A B : Agent) (ctx aR bR : String) (fuel r ctr : Nat)
    (latest : String) :
    debateLoop A B ctx aR bR (fuel + 1) r ctr latest =
      (if markerDone (debateRound A B ctx aR bR r ctr).2.2.1.content
       then ([(debateRound A B ctx aR bR r ctr).1,
              (debateRound A B ctx aR bR r ctr).2.1,
              (debateRound A B ctx aR bR r ctr).2.2.1],
             (debateRound A B ctx aR bR r ctr).2.2.1.content,
             (debateRound A B ctx aR bR r ctr).2.2.2)
       else ((debateRound A B ctx aR bR r ctr).1 ::
              (debateRound A B ctx aR bR r ctr).2.1 ::
              (debateRound A B ctx aR bR r ctr).2.2.1 ::
              (debateLoop A B ctx aR bR fuel (r + 1)
                (debateRound A B ctx aR bR r ctr).2.2.2
                (debateRound A B ctx aR bR r ctr).2.2.1.content).1,
             (debateLoop A B ctx aR bR fuel (r + 1)
                (debateRound A B ctx aR bR r ctr).2.2.2
                (debateRound A B ctx aR bR r ctr).2.2.1.content).2.1,
             (debateLoop A B ctx aR bR fuel (r + 1)
                (debateRound A B ctx aR bR r ctr).2.2.2
                (debateRound A B ctx aR bR r ctr).2.2.1.content).2.2)) := rfl

/-- Structure of the debate loop output: the message log is a flattened
list of round triples, one full round always runs when fuel permits, no
round before the last carries the completion marker in its synthesis,
and stopping strictly early happens only on a marked synthesis. -/
theorem debateLoop_struct (A B : Agent) (ctx aR bR : String) :
    ∀ fuel r ctr latest, ∃ ts : List (Message × Message × Message),
      (debateLoop A B ctx aR bR fuel r ctr latest).1 = tripleFlat ts ∧
      ts.length ≤ fuel ∧ (1 ≤ fuel → 1 ≤ ts.length) ∧
      (∀ i t, ts.get? i = some t → i + 1 < ts.length →
         markerDone t.2.2.content = false) ∧
      (ts.length < fuel → ∃ t, ts.getLast? = some t ∧ markerDone t.2.2.content = true) := by
  intro fuel
  induction fuel with
  | zero =>
    intro r ctr latest
    exact ⟨[], rfl, Nat.le_refl 0, by omega, by intro i t ht; simp at ht, by omega⟩
  | succ n ih =>
    intro r ctr latest
    by_cases hm : markerDone (debateRound A B ctx aR bR r ctr).2.2.1.content
    · refine ⟨[((debateRound A B ctx aR bR r ctr).1,
               (debateRound A B ctx aR bR r ctr).2.1,
               (debateRound A B ctx aR bR r ctr).2.2.1)], ?_, by simp, by simp, ?_, ?_⟩
      · rw [debateLoop_succ, if_pos hm]; rfl
      · intro i t ht h; simp at h
      · intro _; exact ⟨_, rfl, hm⟩
    · obtain ⟨ts, h1, h2, h3, h4, h5⟩ :=
        ih (r + 1) (debateRound A B ctx aR bR r ctr).2.2.2
          (debateRound A B ctx aR bR r ctr).2.2.1.content
      refine ⟨((debateRound A B ctx aR bR r ctr).1,
               (debateRound A B ctx aR bR r ctr).2.1,
               (debateRound A B ctx aR bR r ctr).2.2.1) :: ts, ?_, ?_, ?_, ?_, ?_⟩
      · rw [debateLoop_succ, if_neg hm]
        simp only [tripleFlat, List.flatMap_cons] at h1 ⊢
        rw [h1]
        rfl
      · simp only [List.length_cons]; omega
      · intro _; simp
      · intro i t ht hlen
        rcases i with _ | j
        · simp at ht
          rw [← ht]
          simp only [Bool.not_eq_true] at hm
          exact hm
        · simp only [List.get?_cons_succ] at ht
          simp only [List.length_cons] at hlen
          exact h4 j t ht (by omega)
      · intro hlen
        simp only [List.length_cons] at hlen
        obtain ⟨u, hu, humk⟩ := h5 (by omega)
        refine ⟨u, ?_, humk⟩
        cases hts : ts with
        | nil => rw [hts] at hu; simp at hu
        | cons b bs => rw [hts] at hu; rw [List.getLast?_cons_cons]; exact hu

/-- Roles of the three messages of a debate round: B, A, B. -/
theorem debateRound_roles (A B : Agent) (ra rb : String)
    (hA : ∀ c p, (A c p).1.role = ra) (hB : ∀ c p, (B c p).1.role = rb)
    (ctx aR bR : String) (r ctr : Nat) :
    (debateRound A B ctx aR bR r ctr).1.role = rb ∧
    (debateRound A B ctx aR bR r ctr).2.1.role = ra ∧
    (debateRound A B ctx aR bR r ctr).2.2.1.role = rb := by
  refine ⟨?_, ?_, ?_⟩ <;> simp [debateRound, hA, hB]

/-- The role sequence of a debate log is the `[B, A, B]` pattern repeated
once per executed round. -/
theorem debateLoop_roles (A B : Agent) (ra rb : String)
    (hA : ∀ c p, (A c p).1.role = ra) (hB : ∀ c p, (B c p).1.role = rb)
    (ctx aR bR : String) :
    ∀ fuel r ctr latest, ∃ k, k ≤ fuel ∧ (1 ≤ fuel → 1 ≤ k) ∧
      ((debateLoop A B ctx aR bR fuel r ctr latest).1).map Message.role = rolePat ra rb k := by
  intro fuel
  induction fuel with
  | zero => intro r ctr latest; exact ⟨0, Nat.le_refl 0, by omega, rfl⟩
  | succ n ih =>
    intro r ctr latest
    obtain ⟨hq, ha, hs⟩ := debateRound_roles A B ra rb hA hB ctx aR bR r ctr
    by_cases hm : markerDone (debateRound A B ctx aR bR r ctr).2.2.1.content
    · refine ⟨1, by omega, fun _ => Nat.le_refl 1, ?_⟩
      rw [debateLoop_succ, if_pos hm]
      simp [rolePat, hq, ha, hs]
    · obtain ⟨k, hk1, _, hk3⟩ :=
        ih (r + 1) (debateRound A B ctx aR bR r ctr).2.2.2
          (debateRound A B ctx aR bR r ctr).2.2.1.content
      refine ⟨k + 1, by omega, by omega, ?_⟩
      rw [debateLoop_succ, if_neg hm]
      simp only [List.map_cons, rolePat, hq, ha, hs]
      rw [hk3]

/-- Role-pattern form of the message log of `Orchestrator._debate`. -/
theorem debate_roles (A B : Agent) (ra rb : String)
    (hA : ∀ c p, (A c p).1.role = ra) (hB : ∀ c p, (B c p).1.role = rb)
    (ctx aR bR : String) (n ctr : Nat) :
    ∃ k, k ≤ n ∧ (1 ≤ n → 1 ≤ k) ∧
      ((debate A B ctx aR bR n ctr).2.1).map Message.role = rolePat ra rb k :=
  debateLoop_roles A B ra rb hA hB ctx aR bR n 1 ctr ""

/-- The head of a turn's message list is the Reader message. -/
theorem turnMessages_head (t : TurnOut) : (turnMessages t).head? = some t.m1 := rfl

/-- The last message of a turn is the FollowUp message. -/
theorem turnMessages_last (t : TurnOut) : (turnMessages t).getLast? = some t.m5 := by
  have h : turnMessages t =
      (t.m1 :: (t.d1 ++ t.m2 :: (t.d2 ++ t.m3 :: (t.d3 ++ t.m4 :: t.d4)))) ++ [t.m5] := by
    simp [turnMessages]
  rw [h, List.getLast?_concat]

/-- Role sequence of a turn's message list, by segments. -/
theorem turnMessages_map_role (t : TurnOut) :
    (turnMessages t).map Message.role =
      t.m1.role :: (t.d1.map Message.role ++ t.m2.role ::
        (t.d2.map Message.role ++ t.m3.role ::
          (t.d3.map Message.role ++ t.m4.role ::
            (t.d4.map Message.role ++ [t.m5.role])))) := by
  simp [turnMessages]

/-- The five main pipeline messages of any turn carry the five fixed
role names, in pipeline order. -/
theorem runTurn_roles (P : Provider) (rd : ReaderState) (topic : String)
    (dOn : Bool) (dR ctr : Nat) :
    (runTurn P rd topic dOn dR ctr).1.m1.role = "reader" ∧
    (runTurn P rd topic dOn dR ctr).1.m2.role = "critic" ∧
    (runTurn P rd topic dOn dR ctr).1.m3.role = "synthesizer" ∧
    (runTurn P rd topic dOn dR ctr).1.m4.role = "verifier" ∧
    (runTurn P rd topic dOn dR ctr).1.m5.role = "followup" :=
  ⟨rfl, rfl, rfl, rfl, rfl⟩

/-- With debate disabled, every debate segment of a turn is empty. -/
theorem runTurn_debate_off (P : Provider) (rd : ReaderState) (topic : String)
    (dR ctr : Nat) :
    (runTurn P rd topic false dR ctr).1.d1 = [] ∧
    (runTurn P rd topic false dR ctr).1.d2 = [] ∧
    (runTurn P rd topic false dR ctr).1.d3 = [] ∧
    (runTurn P rd topic false dR ctr).1.d4 = [] :=
  ⟨rfl, rfl, rfl, rfl⟩

/-- With debate enabled and at least one round, each of the four debate
segments of a turn is a nonempty `[B, A, B]` role pattern of at most
`dR` rounds, at the corresponding role boundary. -/
theorem runTurn_debate_on (P : Provider) (rd : ReaderState) (topic : String)
    (dR ctr : Nat) (h : 1 ≤ dR) :
    (∃ k, 1 ≤ k ∧ k ≤ dR ∧
      ((runTurn P rd topic true dR ctr).1.d1).map Message.role = rolePat "reader" "critic" k) ∧
    (∃ k, 1 ≤ k ∧ k ≤ dR ∧
      ((runTurn P rd topic true dR ctr).1.d2).map Message.role = rolePat "critic" "synthesizer" k) ∧
    (∃ k, 1 ≤ k ∧ k ≤ dR ∧
      ((runTurn P rd topic true dR ctr).1.d3).map Message.role = rolePat "synthesizer" "verifier" k) ∧
    (∃ k, 1 ≤ k ∧ k ≤ dR ∧
      ((runTurn P rd topic true dR ctr).1.d4).map Message.role = rolePat "verifier" "followup" k) := by
  obtain ⟨ctx1, c1, e1⟩ :
      ∃ ctx c, (runTurn P rd topic true dR ctr).1.d1 =
        (debate (readerAgent P rd) (criticAgent P) ctx "reader" "critic" dR c).2.1 :=
    ⟨_, _, rfl⟩
  obtain ⟨ctx2, c2, e2⟩ :
      ∃ ctx c, (runTurn P rd topic true dR ctr).1.d2 =
        (debate (criticAgent P) (synthesizerAgent P) ctx "critic" "synthesizer" dR c).2.1 :=
    ⟨_, _, rfl⟩
  obtain ⟨ctx3, c3, e3⟩ :
      ∃ ctx c, (runTurn P rd topic true dR ctr).1.d3 =
        (debate (synthesizerAgent P) (verifierAgent P) ctx "synthesizer" "verifier" dR c).2.1 :=
    ⟨_, _, rfl⟩
  obtain ⟨ctx4, c4, e4⟩ :
      ∃ ctx c, (runTurn P rd topic true dR ctr).1.d4 =
        (debate (verifierAgent P) (followupAgent P) ctx "verifier" "followup" dR c).2.1 :=
    ⟨_, _, rfl⟩
  refine ⟨?_, ?_, ?_, ?_⟩
  · rw [e1]
    obtain ⟨k, hk1, hk2, hk3⟩ := debate_roles (readerAgent P rd) (criticAgent P)
      "reader" "critic" (fun _ _ => rfl) (fun _ _ => rfl) ctx1 "reader" "critic" dR c1
    exact ⟨k, hk2 h, hk1, hk3⟩
  · rw [e2]
    obtain ⟨k, hk1, hk2, hk3⟩ := debate_roles (criticAgent P) (synthesizerAgent P)
      "critic" "synthesizer" (fun _ _ => rfl) (fun _ _ => rfl) ctx2 "critic" "synthesizer" dR c2
    exact ⟨k, hk2 h, hk1, hk3⟩
  · rw [e3]
    obtain ⟨k, hk1, hk2, hk3⟩ := debate_roles (synthesizerAgent P) (verifierAgent P)
      "synthesizer" "verifier" (fun _ _ => rfl) (fun _ _ => rfl) ctx3 "synthesizer" "verifier" dR c3
    exact ⟨k, hk2 h, hk1, hk3⟩
  · rw [e4]
    obtain ⟨k, hk1, hk2, hk3⟩ := debate_roles (verifierAgent P) (followupAgent P)
      "verifier" "followup" (fun _ _ => rfl) (fun _ _ => rfl) ctx4 "verifier" "followup" dR c4
    exact ⟨k, hk2 h, hk1, hk3⟩

/-- The second component of an enumerated pair is a member of the list. -/
theorem mem_enumFrom_snd {α : Type} :
    ∀ (l : List α) (n : Nat) (q : Nat × α), q ∈ List.enumFrom n l → q.2 ∈ l := by
  intro l
  induction l with
  | nil => intro n q h; simp at h
  | cons x xs ih =>
    intro n q h
    rcases List.mem_cons.mp h with h1 | h2
    · rw [h1]; simp
    · exact List.mem_cons_of_mem _ (ih (n + 1) q h2)

/-- Flattened triples have length `3 * rounds`. -/
theorem tripleFlat_length (ts : List (Message × Message × Message)) :
    (tripleFlat ts).length = 3 * ts.length := by
  induction ts with
  | nil => rfl
  | cons t rest ih =>
    simp only [tripleFlat, List.flatMap_cons] at ih ⊢
    simp [ih]
    omega

/-- Unfolding of `runOuts` to the underlying loop. -/
theorem runOuts_def (P : Provider) (rd : ReaderState) (topic : String)
    (maxTurns : Nat) (θ : ℚ) (dEnv : Bool) (dR : Nat) :
    runOuts P rd topic maxTurns θ dEnv dR =
      runLoop P rd topic θ (dEnv && decide (0 < dR)) dR maxTurns 0 := rfl

/-- The turns of a run trace are the enumerated turn records. -/
theorem orchestratorRun_turns (P : Provider) (rd : ReaderState) (topic : String)
    (maxTurns : Nat) (θ : ℚ) (dEnv : Bool) (dR : Nat) (runId createdAt : String) :
    (orchestratorRun P rd topic maxTurns θ dEnv dR runId createdAt).turns =
      (runOuts P rd topic maxTurns θ dEnv dR).enum.map
        (fun p => { index := p.1, messages := turnMessages p.2 }) := rfl

/-- A trace has as many turns as the loop produced records. -/
theorem orchestratorRun_turns_length (P : Provider) (rd : ReaderState) (topic : String)
    (maxTurns : Nat) (θ : ℚ) (dEnv : Bool) (dR : Nat) (runId createdAt : String) :
    (orchestratorRun P rd topic maxTurns θ dEnv dR runId createdAt).turns.length =
      (runOuts P rd topic maxTurns θ dEnv dR).length := by
  rw [orchestratorRun_turns]
  simp

/-- C1: for every run with `max_turns ≥ 1`, the completed trace's turn
count never exceeds `max_turns`; if every recorded turn's Verifier
(main, role `"verifier"`) confidence stays below the consensus threshold
the count equals `max_turns`, and any recorded turn reaching the
threshold is the first such turn and ends the run at index + 1.  The
stop check happens only after a full turn (the turn is recorded before
the break), and exhausting `max_turns` still yields a `"complete"`
trace. -/
theorem c1_turn_count (P : Provider) (rd : ReaderState) (topic : String)
    (maxTurns : Nat) (θ : ℚ) (dEnv : Bool) (dR : Nat) (runId createdAt : String)
    (h : 1 ≤ maxTurns) :
    (orchestratorRun P rd topic maxTurns θ dEnv dR runId createdAt).status = "complete" ∧
    (orchestratorRun P rd topic maxTurns θ dEnv dR runId createdAt).turns.length =
      (runOuts P rd topic maxTurns θ dEnv dR).length ∧
    (runOuts P rd topic maxTurns θ dEnv dR).length ≤ maxTurns ∧
    1 ≤ (runOuts P rd topic maxTurns θ dEnv dR).length ∧
    ((∀ i t, (runOuts P rd topic maxTurns θ dEnv dR).get? i = some t →
        t.m4.confidence < θ) →
      (runOuts P rd topic maxTurns θ dEnv dR).length = maxTurns) ∧
    (∀ i t, (runOuts P rd topic maxTurns θ dEnv dR).get? i = some t →
      θ ≤ t.m4.confidence →
      (runOuts P rd topic maxTurns θ dEnv dR).length = i + 1 ∧
      ∀ j u, (runOuts P rd topic maxTurns θ dEnv dR).get? j = some u → j < i →
        u.m4.confidence < θ) := by
  rw [runOuts_def]
  refine ⟨rfl, by rw [orchestratorRun_turns_length, runOuts_def], ?_, ?_, ?_, ?_⟩
  · exact runLoop_length_le P rd topic θ _ dR maxTurns 0
  · exact List.length_pos.mpr (runLoop_ne_nil P rd topic θ _ dR maxTurns 0 h)
  · intro hall
    by_contra hne
    have hlt : (runLoop P rd topic θ (dEnv && decide (0 < dR)) dR maxTurns 0).length < maxTurns :=
      lt_of_le_of_ne (runLoop_length_le P rd topic θ _ dR maxTurns 0) hne
    obtain ⟨t, hl, hθ⟩ := runLoop_last_ge P rd topic θ _ dR maxTurns 0 hlt
    rw [List.getLast?_eq_getElem?] at hl
    have hg : (runLoop P rd topic θ (dEnv && decide (0 < dR)) dR maxTurns 0).get?
        ((runLoop P rd topic θ (dEnv && decide (0 < dR)) dR maxTurns 0).length - 1) = some t := by
      rw [List.get?_eq_getElem?]; exact hl
    exact absurd hθ (not_le.mpr (hall _ t hg))
  · intro i t ht hθ
    have hi : i < (runLoop P rd topic θ (dEnv && decide (0 < dR)) dR maxTurns 0).length :=
      (List.get?_eq_some.mp ht).1
    have hlen : (runLoop P rd topic θ (dEnv && decide (0 < dR)) dR maxTurns 0).length = i + 1 := by
      by_contra hne
      have : i + 1 < (runLoop P rd topic θ (dEnv && decide (0 < dR)) dR maxTurns 0).length := by
        omega
      exact absurd hθ (not_le.mpr (runLoop_conf_lt P rd topic θ _ dR maxTurns 0 i t ht this))
    exact ⟨hlen, fun j u hu hj =>
      runLoop_conf_lt P rd topic θ _ dR maxTurns 0 j u hu (by omega)⟩

/-- Witness for C1 at a concrete run. -/
theorem c1_turn_count_witness :
    1 ≤ 1 ∧
    (runOuts trivialProvider rdEmpty "t" 1 0 false 1).length ≤ 1 ∧
    1 ≤ (runOuts trivialProvider rdEmpty "t" 1 0 false 1).length := by
  have H := c1_turn_count trivialProvider rdEmpty "t" 1 0 false 1 "r" "c" (by decide)
  exact ⟨by decide, H.2.2.1, H.2.2.2.1⟩

/-- C2: every completed trace of a run with `max_turns ≥ 1` has nonempty
turns and status `"complete"`, and each turn's message list is in strict
temporal order: it begins with the Reader message and ends with the
FollowUp message; with debate disabled it is exactly the five role
messages in pipeline order, and with debate enabled the role sequence
interleaves the four debate-boundary `[B, A, B]` patterns between the
main messages. -/
theorem c2_message_order (P : Provider) (rd : ReaderState) (topic : String)
    (maxTurns : Nat) (θ : ℚ) (dEnv : Bool) (dR : Nat) (runId createdAt : String)
    (h : 1 ≤ maxTurns) :
    (orchestratorRun P rd topic maxTurns θ dEnv dR runId createdAt).turns ≠ [] ∧
    (orchestratorRun P rd topic maxTurns θ dEnv dR runId createdAt).status = "complete" ∧
    ∀ tu ∈ (orchestratorRun P rd topic maxTurns θ dEnv dR runId createdAt).turns,
      (tu.messages.head?).map Message.role = some "reader" ∧
      (tu.messages.getLast?).map Message.role = some "followup" ∧
      ((dEnv && decide (0 < dR)) = false →
        tu.messages.map Message.role =
          ["reader", "critic", "synthesizer", "verifier", "followup"]) ∧
      ((dEnv && decide (0 < dR)) = true →
        ∃ k1 k2 k3 k4,
          1 ≤ k1 ∧ k1 ≤ dR ∧ 1 ≤ k2 ∧ k2 ≤ dR ∧ 1 ≤ k3 ∧ k3 ≤ dR ∧ 1 ≤ k4 ∧ k4 ≤ dR ∧
          tu.messages.map Message.role =
            "reader" :: (rolePat "reader" "critic" k1 ++ "critic" ::
              (rolePat "critic" "synthesizer" k2 ++ "synthesizer" ::
                (rolePat "synthesizer" "verifier" k3 ++ "verifier" ::
                  (rolePat "verifier" "followup" k4 ++ ["followup"]))))) := by
  refine ⟨?_, rfl, ?_⟩
  · have hlen := (c1_turn_count P rd topic maxTurns θ dEnv dR runId createdAt h).2.2.2.1
    intro hnil
    rw [← orchestratorRun_turns_length P rd topic maxTurns θ dEnv dR runId createdAt] at hlen
    rw [hnil] at hlen
    simp at hlen
  · intro tu htu
    rw [orchestratorRun_turns] at htu
    obtain ⟨q, hq, hqe⟩ := List.mem_map.mp htu
    have hsnd : q.2 ∈ runOuts P rd topic maxTurns θ dEnv dR := by
      have : (runOuts P rd topic maxTurns θ dEnv dR).enum =
          List.enumFrom 0 (runOuts P rd topic maxTurns θ dEnv dR) := rfl
      rw [this] at hq
      exact mem_enumFrom_snd _ 0 q hq
    obtain ⟨c, hc⟩ := runLoop_mem P rd topic θ (dEnv && decide (0 < dR)) dR maxTurns 0 q.2
      (by rw [runOuts_def] at hsnd; exact hsnd)
    have hmsg : tu.messages = turnMessages q.2 := by rw [← hqe]
    obtain ⟨hr1, hr2, hr3, hr4, hr5⟩ := runTurn_roles P rd topic (dEnv && decide (0 < dR)) dR c
    refine ⟨?_, ?_, ?_, ?_⟩
    · rw [hmsg, hc, turnMessages_head]
      simp [hr1]
    · rw [hmsg, hc, turnMessages_last]
      simp [hr5]
    · intro hoff
      rw [hoff] at hc hr1 hr2 hr3 hr4 hr5
      obtain ⟨hd1, hd2, hd3, hd4⟩ := runTurn_debate_off P rd topic dR c
      rw [hmsg, hc, turnMessages_map_role]
      simp [hd1, hd2, hd3, hd4, hr1, hr2, hr3, hr4, hr5]
    · intro hon
      have hdr : 1 ≤ dR := by
        have h1 := (Bool.and_eq_true _ _).mp hon
        have h2 := of_decide_eq_true h1.2
        omega
      rw [hon] at hc hr1 hr2 hr3 hr4 hr5
      obtain ⟨⟨k1, h11, h12, h13⟩, ⟨k2, h21, h22, h23⟩, ⟨k3, h31, h32, h33⟩,
              ⟨k4, h41, h42, h43⟩⟩ := runTurn_debate_on P rd topic dR c hdr
      refine ⟨k1, k2, k3, k4, h11, h12, h21, h22, h31, h32, h41, h42, ?_⟩
      rw [hmsg, hc, turnMessages_map_role]
      simp [hr1, hr2, hr3, hr4, hr5, h13, h23, h33, h43]

/-- Witness for C2 at a concrete run. -/
theorem c2_message_order_witness :
    1 ≤ 1 ∧
    (orchestratorRun trivialProvider rdEmpty "t" 1 0 false 1 "r" "c").status = "complete" := by
  have H := c2_message_order trivialProvider rdEmpty "t" 1 0 false 1 "r" "c" (by decide)
  exact ⟨by decide, H.2.1⟩

/-- C3: a debate sub-dialogue with `max_rounds = n ≥ 1` logs between 3
and `3n` messages, grouped as one (B-asks, A-answers, B-synthesis)
triple per executed round appended before any stop check; no round
before the last carries the `[DONE]` marker (case-insensitively) in its
synthesis — a synthesis without markers simply continues — and stopping
with rounds to spare happens exactly when the last synthesis carries the
marker. -/
theorem c3_debate_bounds (A B : Agent) (ctx aR bR : String) (n ctr : Nat)
    (h : 1 ≤ n) :
    ∃ ts : List (Message × Message × Message),
      (debate A B ctx aR bR n ctr).2.1 = tripleFlat ts ∧
      1 ≤ ts.length ∧ ts.length ≤ n ∧
      (debate A B ctx aR bR n ctr).2.1.length = 3 * ts.length ∧
      3 ≤ (debate A B ctx aR bR n ctr).2.1.length ∧
      (debate A B ctx aR bR n ctr).2.1.length ≤ 3 * n ∧
      (∀ i t, ts.get? i = some t → i + 1 < ts.length →
        markerDone t.2.2.content = false) ∧
      (ts.length < n → ∃ t, ts.getLast? = some t ∧ markerDone t.2.2.content = true) := by
  obtain ⟨ts, h1, h2, h3, h4, h5⟩ := debateLoop_struct A B ctx aR bR n 1 ctr ""
  have hmsgs : (debate A B ctx aR bR n ctr).2.1 = tripleFlat ts := h1
  have hlen : (debate A B ctx aR bR n ctr).2.1.length = 3 * ts.length := by
    rw [hmsgs, tripleFlat_length]
  have hts1 : 1 ≤ ts.length := h3 h
  exact ⟨ts, hmsgs, hts1, h2, hlen, by omega, by omega, h4, h5⟩

/-- Witness for C3 at a concrete debate. -/
theorem c3_debate_bounds_witness :
    1 ≤ 1 ∧
    ∃ ts : List (Message × Message × Message),
      (debate (criticAgent trivialProvider) (synthesizerAgent trivialProvider)
        "ctx" "critic" "synthesizer" 1 0).2.1 = tripleFlat ts ∧
      1 ≤ ts.length ∧ ts.length ≤ 1 ∧
      (debate (criticAgent trivialProvider) (synthesizerAgent trivialProvider)
        "ctx" "critic" "synthesizer" 1 0).2.1.length = 3 * ts.length ∧
      3 ≤ (debate (criticAgent trivialProvider) (synthesizerAgent trivialProvider)
        "ctx" "critic" "synthesizer" 1 0).2.1.length ∧
      (debate (criticAgent trivialProvider) (synthesizerAgent trivialProvider)
        "ctx" "critic" "synthesizer" 1 0).2.1.length ≤ 3 * 1 ∧
      (∀ i t, ts.get? i = some t → i + 1 < ts.length →
        markerDone t.2.2.content = false) ∧
      (ts.length < 1 → ∃ t, ts.getLast? = some t ∧ markerDone t.2.2.content = true) :=
  ⟨by decide, c3_debate_bounds (criticAgent trivialProvider)
    (synthesizerAgent trivialProvider) "ctx" "critic" "synthesizer" 1 0 (by decide)⟩

/-- A nonempty knowledge base always formats to a nonempty excerpt (its
first line starts with `"Document 1: "`). -/
theorem formatKB_ne_empty (kb : List KBEntry) (h : kb ≠ []) : formatKB kb ≠ "" := by
  obtain ⟨x, xs, rfl⟩ := List.exists_cons_of_ne_nil h
  have h1 : formatKB (x :: xs) =
      joinSep "\n\n" (formatEntry 1 x ::
        (List.enumFrom 1 (xs.take 2)).map (fun p => formatEntry (p.1 + 1) p.2)) := by
    simp [formatKB, List.take_succ_cons, List.enum_cons]
  have h2 : pyLen (formatEntry 1 x) ≤ pyLen (formatKB (x :: xs)) := by
    rw [h1]; exact joinSep_head_le _ _ _
  obtain ⟨tail, htail⟩ :
      ∃ tail, formatEntry 1 x =
        joinSep "\n" (("Document " ++ toString 1 ++ ": " ++ x.source.getD "Unknown") :: tail) :=
    ⟨_, rfl⟩
  have h3 : 1 ≤ pyLen (formatEntry 1 x) := by
    rw [htail]
    have hle := joinSep_head_le "\n"
      ("Document " ++ toString 1 ++ ": " ++ x.source.getD "Unknown") tail
    have hhd : 9 ≤ pyLen ("Document " ++ toString 1 ++ ": " ++ x.source.getD "Unknown") := by
      simp only [pyLen_append]
      have h9 : pyLen "Document " = 9 := rfl
      omega
    omega
  intro hcon
  rw [hcon] at h2
  have h0 : pyLen "" = 0 := rfl
  omega

/-- C4: the Reader's prompt augmentation: with neither a knowledge base
nor retrieved documents the prompt passes through to the provider
unmodified; otherwise the knowledge-base excerpt (limited to the first 3
entries) is prepended before the retrieved snippets, each snippet being
word-boundary truncated to at most 404 code points (400 plus the
`" ..."` suffix) and tagged with its source and chunk identifiers. -/
theorem c4_reader_augment (st : ReaderState) (prompt : String) (P : Provider) (ctr : Nat) :
    (st.kb = [] → readerDocs st prompt = [] →
      augment st prompt = prompt ∧
      readerAgent P st ctr prompt = baseSend P readerCfg ctr prompt) ∧
    formatKB st.kb = formatKB (st.kb.take 3) ∧
    (∀ d : Doc,
      pyLen (snippetOf d) ≤ 404 ∧
      (pyLen (pyStrip d.page_content) ≤ 400 → snippetOf d = pyStrip d.page_content) ∧
      (400 < pyLen (pyStrip d.page_content) →
        snippetOf d = beforeLast ' ' (pyTake (pyStrip d.page_content) 400) ++ " ...") ∧
      chunkEntry d = "[SOURCE: " ++ d.source.getD "?" ++ " | CHUNK: " ++
        d.chunk_id.getD "?" ++ "]\n" ++ snippetOf d) ∧
    (st.kb ≠ [] ∨ readerDocs st prompt ≠ [] →
      augment st prompt = prompt ++ "\n\n" ++
        joinSep "\n\n" (kbParts st ++ retrParts st prompt) ++ "\n" ++ dashes50 ++ "\n") := by
  refine ⟨?_, ?_, ?_, ?_⟩
  · intro hkb hdocs
    have haug : augment st prompt = prompt := by
      simp [augment, kbParts, retrParts, hkb, hdocs]
    refine ⟨haug, ?_⟩
    unfold readerAgent
    rw [haug]
  · simp [formatKB, List.take_take]
  · intro d
    refine ⟨?_, ?_, ?_, rfl⟩
    · unfold snippetOf
      by_cases h4 : 400 < pyLen (pyStrip d.page_content)
      · rw [if_pos h4, pyLen_append]
        have hb := beforeLast_length_le ' ' (pyTake (pyStrip d.page_content) 400)
        have ht := pyTake_length_le (pyStrip d.page_content) 400
        have hs : pyLen " ..." = 4 := rfl
        omega
      · rw [if_neg h4]
        omega
    · intro hle
      unfold snippetOf
      rw [if_neg (by omega)]
    · intro hgt
      unfold snippetOf
      rw [if_pos hgt]
  · intro hne
    have hparts : ¬ (kbParts st ++ retrParts st prompt).isEmpty = true := by
      rcases hne with hkb | hdocs
      · have hkbp : kbParts st =
            ["--- Extracted Knowledge Base ---\n" ++ formatKB st.kb] := by
          unfold kbParts
          rw [if_neg (by simp [List.isEmpty_iff, hkb]), if_neg (formatKB_ne_empty st.kb hkb)]
        rw [hkbp]
        simp
      · have hrp : retrParts st prompt =
            ["--- Retrieved Document Chunks ---\n" ++
              joinSep "\n\n" ((readerDocs st prompt).map chunkEntry)] := by
          unfold retrParts
          rw [if_neg (by simp [List.isEmpty_iff, hdocs])]
        rw [hrp]
        simp
    unfold augment
    rw [if_neg hparts]

/-- Witness for C4 at a concrete reader state and document. -/
theorem c4_reader_augment_witness :
    rdEmpty.kb = [] ∧ readerDocs rdEmpty "p" = [] ∧
    augment rdEmpty "p" = "p" ∧
    readerAgent trivialProvider rdEmpty 0 "p" = baseSend trivialProvider readerCfg 0 "p" := by
  have H := (c4_reader_augment rdEmpty "p" trivialProvider 0).1 rfl rfl
  exact ⟨rfl, rfl, H.1, H.2⟩

/-- A run with at least one turn of budget always reaches report
derivation with a nonempty turn list, so the report builds. -/
theorem buildReport_run_some (P : Provider) (rd : ReaderState) (topic : String)
    (maxTurns : Nat) (θ : ℚ) (dEnv : Bool) (dR : Nat) (runId createdAt : String)
    (h : 1 ≤ maxTurns) :
    ∃ rep, buildReport (orchestratorRun P rd topic maxTurns θ dEnv dR runId createdAt) =
      some rep := by
  have hlen : 1 ≤ (orchestratorRun P rd topic maxTurns θ dEnv dR runId createdAt).turns.length := by
    rw [orchestratorRun_turns_length, runOuts_def]
    exact List.length_pos.mpr (runLoop_ne_nil P rd topic θ _ dR maxTurns 0 h)
  have hne : (orchestratorRun P rd topic maxTurns θ dEnv dR runId createdAt).turns ≠ [] := by
    intro hnil
    rw [hnil] at hlen
    simp at hlen
  cases hg : (orchestratorRun P rd topic maxTurns θ dEnv dR runId createdAt).turns.getLast? with
  | none => exact absurd (List.getLast?_eq_none_iff.mp hg) hne
  | some lastTurn =>
    have hs : (buildReport (orchestratorRun P rd topic maxTurns θ dEnv dR runId createdAt)).isSome
        = true := by
      unfold buildReport
      rw [hg]
      rfl
    exact Option.isSome_iff_exists.mp hs

/-- C9: report derivation reads the last turn without an emptiness
guard; with `max_turns ≥ 1` the loop records at least one turn before
report derivation so that access succeeds, while a run invoked with
`max_turns = 0` reaches report derivation with an empty turn list and
the access fails (the `none`/`IndexError` branch). -/
theorem c9_unguarded_last_turn :
    (∀ (P : Provider) (rd : ReaderState) (topic : String) (maxTurns : Nat) (θ : ℚ)
       (dEnv : Bool) (dR : Nat) (runId createdAt : String), 1 ≤ maxTurns →
       (buildReport (orchestratorRun P rd topic maxTurns θ dEnv dR runId createdAt)).isSome
         = true) ∧
    (∀ (P : Provider) (rd : ReaderState) (topic : String) (θ : ℚ)
       (dEnv : Bool) (dR : Nat) (runId createdAt : String),
       buildReport (orchestratorRun P rd topic 0 θ dEnv dR runId createdAt) = none) := by
  constructor
  · intro P rd topic maxTurns θ dEnv dR runId createdAt h
    obtain ⟨rep, hrep⟩ := buildReport_run_some P rd topic maxTurns θ dEnv dR runId createdAt h
    rw [hrep]
    rfl
  · intro P rd topic θ dEnv dR runId createdAt
    rfl

/-- Witness for C9 at a concrete run. -/
theorem c9_unguarded_last_turn_witness :
    1 ≤ 1 ∧
    (buildReport (orchestratorRun trivialProvider rdEmpty "t" 1 0 false 1 "r" "c")).isSome
      = true :=
  ⟨by decide, c9_unguarded_last_turn.1 trivialProvider rdEmpty "t" 1 0 false 1 "r" "c"
    (by decide)⟩

/-- C6: a completed run's persisted artifacts load back by `run_id`
exactly as persisted, and loading an unknown `run_id` is the `none`
outcome (both loaders are total functions into `Option`: they never
raise). -/
theorem c6_load_roundtrip :
    (∀ (s : Store) (P : Provider) (rd : ReaderState) (topic : String) (maxTurns : Nat)
       (θ : ℚ) (dEnv : Bool) (dR : Nat) (runId createdAt : String), 1 ≤ maxTurns →
       ∃ rep s2,
         buildReport (orchestratorRun P rd topic maxTurns θ dEnv dR runId createdAt) =
           some rep ∧
         startRun s P rd topic maxTurns θ dEnv dR runId createdAt = some (runId, s2) ∧
         loadTrace s2 runId =
           some (orchestratorRun P rd topic maxTurns θ dEnv dR runId createdAt) ∧
         loadReport s2 runId = some rep) ∧
    (∀ (s : Store) (runId : String),
       (∀ p ∈ s.traces, p.1 ≠ runId) → loadTrace s runId = none) ∧
    (∀ (s : Store) (runId : String),
       (∀ p ∈ s.reports, p.1 ≠ runId) → loadReport s runId = none) := by
  refine ⟨?_, ?_, ?_⟩
  · intro s P rd topic maxTurns θ dEnv dR runId createdAt h
    obtain ⟨rep, hrep⟩ := buildReport_run_some P rd topic maxTurns θ dEnv dR runId createdAt h
    refine ⟨rep,
      { traces := (runId, orchestratorRun P rd topic maxTurns θ dEnv dR runId createdAt)
          :: s.traces
      , reports := (runId, rep) :: s.reports }, hrep, ?_, ?_, ?_⟩
    · simp only [startRun]
      rw [hrep]
    · exact lookupKey_cons_self runId _ s.traces
    · exact lookupKey_cons_self runId _ s.reports
  · intro s runId hmiss
    exact lookupKey_eq_none runId s.traces hmiss
  · intro s runId hmiss
    exact lookupKey_eq_none runId s.reports hmiss

/-- Witness for C6 at a concrete run against the empty store. -/
theorem c6_load_roundtrip_witness :
    1 ≤ 1 ∧
    (∃ rep s2,
      buildReport (orchestratorRun trivialProvider rdEmpty "t" 1 0 false 1 "r" "c") =
        some rep ∧
      startRun emptyStore trivialProvider rdEmpty "t" 1 0 false 1 "r" "c" =
        some ("r", s2) ∧
      loadTrace s2 "r" = some (orchestratorRun trivialProvider rdEmpty "t" 1 0 false 1 "r" "c") ∧
      loadReport s2 "r" = some rep) ∧
    loadTrace emptyStore "x" = none :=
  ⟨by decide,
   c6_load_roundtrip.1 emptyStore trivialProvider rdEmpty "t" 1 0 false 1 "r" "c" (by decide),
   c6_load_roundtrip.2.1 emptyStore "x" (by intro p hp; simp [emptyStore] at hp)⟩

/-- The first 8 hex digits of a 256-bit digest form a 32-bit value. -/
theorem topWord_lt (v : Nat) : topWord v < 2 ^ 32 := by
  unfold topWord
  rw [Nat.div_lt_iff_lt_mul (by positivity : 0 < (2:ℕ) ^ 224)]
  calc v % 2 ^ 256 < 2 ^ 256 := Nat.mod_lt _ (by positivity)
    _ = 2 ^ 32 * 2 ^ 224 := by norm_num

/-- The mock confidence always lands in `[0.55, 0.95]`. -/
theorem mockConfidence_bounds (v : Nat) :
    11 / 20 ≤ mockConfidence v ∧ mockConfidence v ≤ 19 / 20 := by
  unfold mockConfidence pyRound3
  have ht : topWord v ≤ 2 ^ 32 - 1 := by
    have := topWord_lt v
    omega
  have ht0 : (0 : ℚ) ≤ (topWord v : ℚ) := Nat.cast_nonneg _
  have htQ : (topWord v : ℚ) ≤ 2 ^ 32 - 1 := by
    calc (topWord v : ℚ) ≤ ((2 ^ 32 - 1 : ℕ) : ℚ) := Nat.cast_le.mpr ht
      _ = 2 ^ 32 - 1 := by norm_num
  have hden : (0 : ℚ) < 2 ^ 32 - 1 := by norm_num
  have hr0 : (0 : ℚ) ≤ (topWord v : ℚ) / (2 ^ 32 - 1) := by positivity
  have hr1 : (topWord v : ℚ) / (2 ^ 32 - 1) ≤ 1 := by
    rw [div_le_one hden]
    exact htQ
  set x : ℚ := 11 / 20 + 2 / 5 * ((topWord v : ℚ) / (2 ^ 32 - 1)) with hx
  have hx1 : 11 / 20 ≤ x := by
    rw [hx]
    nlinarith
  have hx2 : x ≤ 19 / 20 := by
    rw [hx]
    nlinarith
  have h550 : (550 : ℤ) ≤ round (x * 1000) := by
    rw [round_eq, Int.le_floor]
    push_cast
    linarith
  have h950 : round (x * 1000) ≤ 950 := by
    rw [round_eq]
    have hlt : x * 1000 + 1 / 2 < ((951 : ℤ) : ℚ) := by push_cast; linarith
    have := Int.floor_lt.mpr hlt
    omega
  constructor
  · rw [le_div_iff₀ (by norm_num : (0 : ℚ) < 1000)]
    calc (11 : ℚ) / 20 * 1000 = ((550 : ℤ) : ℚ) := by norm_num
      _ ≤ ((round (x * 1000) : ℤ) : ℚ) := by exact_mod_cast h550
  · rw [div_le_iff₀ (by norm_num : (0 : ℚ) < 1000)]
    calc ((round (x * 1000) : ℤ) : ℚ) ≤ ((950 : ℤ) : ℚ) := by exact_mod_cast h950
      _ = 19 / 20 * 1000 := by norm_num

/-- C7: under the deterministic offline placeholder provider, two runs
with identical topic, `max_turns`, `consensus_threshold` and debate
disabled are turn-for-turn identical — only `run_id` and `created_at`
differ — and every placeholder confidence lies in `[0.55, 0.95]`. -/
theorem c7_mock_determinism (digest : String → Nat) (rd : ReaderState) (topic : String)
    (maxTurns : Nat) (θ : ℚ) (dR : Nat) (id1 created1 id2 created2 : String) :
    (orchestratorRun (mockProvider digest) rd topic maxTurns θ false dR id1 created1).turns =
      (orchestratorRun (mockProvider digest) rd topic maxTurns θ false dR id2 created2).turns ∧
    (orchestratorRun (mockProvider digest) rd topic maxTurns θ false dR id1 created1).topic =
      (orchestratorRun (mockProvider digest) rd topic maxTurns θ false dR id2 created2).topic ∧
    (orchestratorRun (mockProvider digest) rd topic maxTurns θ false dR id1 created1).status =
      (orchestratorRun (mockProvider digest) rd topic maxTurns θ false dR id2 created2).status ∧
    (orchestratorRun (mockProvider digest) rd topic maxTurns θ false dR id1 created1).run_id
      = id1 ∧
    (orchestratorRun (mockProvider digest) rd topic maxTurns θ false dR id2 created2).run_id
      = id2 ∧
    (orchestratorRun (mockProvider digest) rd topic maxTurns θ false dR id1 created1).created_at
      = created1 ∧
    (orchestratorRun (mockProvider digest) rd topic maxTurns θ false dR id2 created2).created_at
      = created2 ∧
    ∀ ctr role instr prompt,
      11 / 20 ≤ (mockProvider digest ctr role instr prompt).confidence ∧
      (mockProvider digest ctr role instr prompt).confidence ≤ 19 / 20 := by
  refine ⟨rfl, rfl, rfl, rfl, rfl, rfl, rfl, ?_⟩
  intro ctr role instr prompt
  exact mockConfidence_bounds (digest (instr ++ "\n" ++ prompt))

set_option maxRecDepth 1000000 in
/-- C5: with debate enabled (the default configuration), report
derivation picks the FIRST message of each role in the last turn via
`next(...)`; that first match is a debate clarification message, not the
main Integrator/Validator/Planner pipeline message, so the derived
confidence, hypotheses and citations all differ from the last turn's
main `m3`/`m4`/`m5` values that the specification prescribes (and that
the code's own docstring, "last synthesizer, verifier, and followup
messages", promises). -/
theorem c5_report_picks_debate_messages :
    ((buildReport (orchestratorRun trivialProvider rdEmpty "topic" 1 1 true 1 "rid" "t0")).map
        InsightReport.confidence = some (mkRat 9 100)) ∧
    (((runOuts trivialProvider rdEmpty "topic" 1 1 true 1).getLast?).map
        (fun t => t.m4.confidence) = some (mkRat 12 100)) ∧
    decide (mkRat 9 100 = mkRat 12 100) = false ∧
    ((buildReport (orchestratorRun trivialProvider rdEmpty "topic" 1 1 true 1 "rid" "t0")).map
        InsightReport.hypotheses =
      some ["[DEBATE critic->synthesizer | SYNTHESIZER asks | Round 1]\nc5"]) ∧
    (((runOuts trivialProvider rdEmpty "topic" 1 1 true 1).getLast?).map
        (fun t => (((splitCh '.' t.m3.content).map pyStrip).filter (fun h => h ≠ "")).take 5) =
      some ["c8"]) ∧
    ((buildReport (orchestratorRun trivialProvider rdEmpty "topic" 1 1 true 1 "rid" "t0")).map
        InsightReport.citations = some ["z5", "z9", "z13"]) ∧
    (((runOuts trivialProvider rdEmpty "topic" 1 1 true 1).getLast?).map
        (fun t => t.m3.citations ++ t.m4.citations ++ t.m5.citations) =
      some ["z8", "z12", "z16"]) := by
  decide

set_option maxRecDepth 1000000 in
/-- C10: with debate enabled, the report summary is built from the first
synthesizer-role and first followup-role messages of the last turn —
debate clarification messages whose content starts with a `[DEBATE ...]`
header — not from the first 300 characters of the Integrator message
`m3` and the first 200 of the Planner message `m5`. -/
theorem c10_summary_picks_debate_messages :
    ((buildReport (orchestratorRun trivialProvider rdEmpty "t10" 1 1 true 1 "rid" "t0")).map
        InsightReport.summary =
      some ("[DEBATE critic->synthesizer | SYNTHESIZER asks | Round 1]\nc5" ++
        "\n\nFollow-up Research Directions:\n" ++
        "[DEBATE verifier->followup | FOLLOWUP asks | Round 1]\nc13" ++ "...")) ∧
    (((runOuts trivialProvider rdEmpty "t10" 1 1 true 1).getLast?).map
        (fun t => pyTake t.m3.content 300 ++ "\n\nFollow-up Research Directions:\n" ++
          pyTake t.m5.content 200 ++ "...") =
      some "c8\n\nFollow-up Research Directions:\nc16...") ∧
    decide (("[DEBATE critic->synthesizer | SYNTHESIZER asks | Round 1]\nc5" ++
        "\n\nFollow-up Research Directions:\n" ++
        "[DEBATE verifier->followup | FOLLOWUP asks | Round 1]\nc13" ++ "...") =
       "c8\n\nFollow-up Research Directions:\nc16...") = false := by
  decide

/-- A provider that echoes its prompt (used to make retrieval
configuration observable in the trace). -/
def echoProvider : Provider :=
  fun _ _ _ prompt => { content := prompt, citations := [], confidence := 0 }

/-- Five one-character document chunks. -/
def docsFixture : List Doc :=
  [ { page_content := "a", source := none, chunk_id := none }
  , { page_content := "b", source := none, chunk_id := none }
  , { page_content := "c", source := none, chunk_id := none }
  , { page_content := "d", source := none, chunk_id := none }
  , { page_content := "e", source := none, chunk_id := none } ]

/-- An ambient configuration with BM25 auto-enabled, five chunks on disk
and a retriever that returns the top `k` chunks. -/
def envFixture : Env :=
  { enable_bm25 := "auto", bm25_files_dir := "files", kbAt := []
  , chunksAt := fun _ => docsFixture
  , mkRetriever := fun chunks => fun _ k => chunks.take k }

set_option maxRecDepth 1000000 in
/-- C8: the per-run retrieval override is NOT scoped to the run: `run`
assigns the rebuilt reader to the orchestrator's `reader` attribute and
never restores it, so after a run with `enable_bm25 = False, bm25_k = 7`
the shared orchestrator keeps the rebuilt reader (`bm25_k = 7` instead
of the original 4), and a subsequent run passing no override produces a
different trace than it would have produced had the overriding run never
happened. -/
theorem c8_override_leaks_to_next_run :
    (orchRunCtl envFixture echoProvider (newOrch envFixture) "t" 1 0 false 1
        (some false) none 7 "r1" "t1").2.reader.bm25_k = 7 ∧
    (newOrch envFixture).reader.bm25_k = 4 ∧
    decide ((orchRunCtl envFixture echoProvider
          (orchRunCtl envFixture echoProvider (newOrch envFixture) "t" 1 0 false 1
            (some false) none 7 "r1" "t1").2
          "t" 1 0 false 1 none none 4 "r2" "t2").1 =
        (orchRunCtl envFixture echoProvider (newOrch envFixture)
          "t" 1 0 false 1 none none 4 "r2" "t2").1) = false := by
  decide
